import Mathlib

/-!
# Blackfin BF533 FreeRTOS port: critical sections and yield requests

A shallow embedding of the macros of `rtos/include/portmacro.h`:

* `portDISABLE_INTERRUPTS` / `portENABLE_INTERRUPTS` (lines 112-113),
* `portENTER_CRITICAL` / `portEXIT_CRITICAL` (lines 119-147),
* `portYIELD` / `portYIELD_FROM_ISR` (lines 159-167).

The macros act on three machine words: the 16-bit counter `usCriticalNesting`,
the processor's interrupt mask, and the saved-mask variable `cpu_sr`.  Every
hardware instruction a macro executes (`cli`, `sti`, `raise 14`) is appended to
a log carried in the state, so that "is called exactly once" and "is not
called" are statements about that log.
-/

namespace PortMacro

/-- Hardware instructions issued by the port macros, in program order. -/
inductive Event where
  | cli
  | sti (mask : Nat)
  | raise (level : Nat)
  deriving DecidableEq

/-- Machine state seen by the macros.  `usCriticalNesting` is the
`volatile uint16_t` counter, `imask` the processor interrupt mask (one bit per
interrupt source, `0` = every source masked), `cpu_sr` the `unsigned int`
variable the gate macros save the mask in, and `trace` the log of hardware
instructions executed so far. -/
structure State where
  usCriticalNesting : Nat
  imask : Nat
  cpu_sr : Nat
  trace : List Event
  deriving DecidableEq

/-- Interrupts are enabled when at least one source is unmasked. -/
def interruptsEnabled (s : State) : Prop := s.imask ≠ 0

instance (s : State) : Decidable (interruptsEnabled s) := by
  unfold interruptsEnabled
  infer_instance

/-- Number of values of a `uint16_t`. -/
def u16Modulus : Nat := 65536

/-- The C expression `v++` on a `uint16_t`: increment modulo `2^16`. -/
def u16Inc (v : Nat) : Nat := (v + 1) % u16Modulus

/-- The C expression `v--` on a `uint16_t`: decrement modulo `2^16`. -/
def u16Dec (v : Nat) : Nat := (v + (u16Modulus - 1)) % u16Modulus

/-- Modelled from the spec: the compiler intrinsic `cli()` is not part of the
header; it returns the interrupt mask in force and then masks all interrupts. -/
def cli (s : State) : Nat × State :=
  (s.imask, { s with imask := 0, trace := s.trace ++ [Event.cli] })

/-- Modelled from the spec: the compiler intrinsic `sti(mask)` is not part of
the header; it installs `mask` as the interrupt mask. -/
def sti (mask : Nat) (s : State) : State :=
  { s with imask := mask, trace := s.trace ++ [Event.sti mask] }

/-- The instruction `raise 14`: requests the context-switch interrupt.  The
handler it eventually runs is outside the header; the request is logged. -/
def raise14 (s : State) : State :=
  { s with trace := s.trace ++ [Event.raise 14] }

/-- Macro `#define portDISABLE_INTERRUPTS() (cpu_sr = cli())`. -/
def portDISABLE_INTERRUPTS (s : State) : State :=
  let r := cli s
  { r.2 with cpu_sr := r.1 }

/-- Macro `#define portENABLE_INTERRUPTS() (sti(cpu_sr))`. -/
def portENABLE_INTERRUPTS (s : State) : State :=
  sti s.cpu_sr s

/-- Macro `#define portNO_CRITICAL_SECTION_NESTING ( ( UBaseType_t ) 0 )`. -/
def portNO_CRITICAL_SECTION_NESTING : Nat := 0

/-- Macro `portENTER_CRITICAL()`: `portDISABLE_INTERRUPTS(); usCriticalNesting++;`. -/
def portENTER_CRITICAL (s : State) : State :=
  let s1 := portDISABLE_INTERRUPTS s
  { s1 with usCriticalNesting := u16Inc s1.usCriticalNesting }

/-- Macro `portEXIT_CRITICAL()`: when the counter is above zero, decrement it and,
if it has reached zero, `portENABLE_INTERRUPTS()`. -/
def portEXIT_CRITICAL (s : State) : State :=
  if s.usCriticalNesting > portNO_CRITICAL_SECTION_NESTING then
    let s1 := { s with usCriticalNesting := u16Dec s.usCriticalNesting }
    if s1.usCriticalNesting = portNO_CRITICAL_SECTION_NESTING then
      portENABLE_INTERRUPTS s1
    else
      s1
  else
    s

/-- Macro `#define portYIELD()` with body `asm("raise 14;")`. -/
def portYIELD (s : State) : State :=
  raise14 s

/-- Macro `#define portYIELD_FROM_ISR( x ) if( x ) portYIELD()`, with `x` a
`BaseType_t`. -/
def portYIELD_FROM_ISR (xHigherPriorityTaskWoken : Int) (s : State) : State :=
  if xHigherPriorityTaskWoken ≠ 0 then portYIELD s else s

/-- The four entry points the port exposes to tasks and interrupt handlers. -/
inductive Call where
  | enterCritical
  | exitCritical
  | yield
  | yieldFromISR (xHigherPriorityTaskWoken : Int)
  deriving DecidableEq

/-- Execute one call. -/
def step (s : State) : Call → State
  | Call.enterCritical => portENTER_CRITICAL s
  | Call.exitCritical => portEXIT_CRITICAL s
  | Call.yield => portYIELD s
  | Call.yieldFromISR x => portYIELD_FROM_ISR x s

/-- Execute a sequence of calls, first call first. -/
def run (s : State) (calls : List Call) : State :=
  calls.foldl step s

/-- The two critical-section entry points on their own. -/
inductive CritCall where
  | enter
  | exit
  deriving DecidableEq

/-- A critical-section call as one of the port's entry points. -/
def CritCall.toCall : CritCall → Call
  | CritCall.enter => Call.enterCritical
  | CritCall.exit => Call.exitCritical

/-- Execute a sequence of critical-section calls, first call first. -/
def runCrit (s : State) (calls : List CritCall) : State :=
  run s (calls.map CritCall.toCall)

/-- The state at system start: counter zero, interrupt mask `m0`, `cpu_sr`
holding `sr0`, nothing executed yet.  Interrupts are enabled when `m0 ≠ 0`. -/
def initState (m0 sr0 : Nat) : State :=
  { usCriticalNesting := 0, imask := m0, cpu_sr := sr0, trace := [] }

/-- Number of `sti` instructions executed so far, that is the number of times
`portENABLE_INTERRUPTS` has run. -/
def enableCount (s : State) : Nat :=
  s.trace.countP fun e => match e with
    | Event.sti _ => true
    | _ => false

/-- Number of `raise 14` instructions executed so far. -/
def trapCount (s : State) : Nat :=
  s.trace.count (Event.raise 14)

/-- Whether a sequence of critical-section calls, started in `s`, only ever
enters a critical section while the counter is zero (no section is opened
inside another one). -/
def neverNested (s : State) : List CritCall → Bool
  | [] => true
  | CritCall.enter :: rest =>
      decide (s.usCriticalNesting = 0) && neverNested (portENTER_CRITICAL s) rest
  | CritCall.exit :: rest => neverNested (portEXIT_CRITICAL s) rest

/-- The part of the state the interrupt gate macros read and write: the
interrupt mask and the saved word `cpu_sr`. -/
def gateState (s : State) : Nat × Nat := (s.imask, s.cpu_sr)

/-! ## Effect of each macro on the fields of the state -/

theorem u16Dec_of_pos {v : Nat} (h0 : 0 < v) (h1 : v < 65536) : u16Dec v = v - 1 := by
  unfold u16Dec u16Modulus
  omega

theorem u16Inc_of_lt {v : Nat} (h : v < 65535) : u16Inc v = v + 1 := by
  unfold u16Inc u16Modulus
  omega

theorem disable_imask (s : State) : (portDISABLE_INTERRUPTS s).imask = 0 := rfl

theorem disable_cpu_sr (s : State) : (portDISABLE_INTERRUPTS s).cpu_sr = s.imask := rfl

theorem enter_imask (s : State) : (portENTER_CRITICAL s).imask = 0 := rfl

theorem enter_cpu_sr (s : State) : (portENTER_CRITICAL s).cpu_sr = s.imask := rfl

theorem enter_nesting (s : State) :
    (portENTER_CRITICAL s).usCriticalNesting = u16Inc s.usCriticalNesting := rfl

theorem exit_of_zero (s : State) (h : s.usCriticalNesting = 0) :
    portEXIT_CRITICAL s = s := by
  simp [portEXIT_CRITICAL, portNO_CRITICAL_SECTION_NESTING, h]

theorem exit_to_zero (s : State) (h0 : 0 < s.usCriticalNesting)
    (h1 : u16Dec s.usCriticalNesting = 0) :
    portEXIT_CRITICAL s =
      portENABLE_INTERRUPTS { s with usCriticalNesting := u16Dec s.usCriticalNesting } := by
  simp [portEXIT_CRITICAL, portNO_CRITICAL_SECTION_NESTING, h0, h1]

theorem exit_above_zero (s : State) (h0 : 0 < s.usCriticalNesting)
    (h1 : u16Dec s.usCriticalNesting ≠ 0) :
    portEXIT_CRITICAL s = { s with usCriticalNesting := u16Dec s.usCriticalNesting } := by
  simp [portEXIT_CRITICAL, portNO_CRITICAL_SECTION_NESTING, h0, h1]

theorem yield_fields (s : State) :
    (portYIELD s).usCriticalNesting = s.usCriticalNesting ∧
    (portYIELD s).imask = s.imask ∧ (portYIELD s).cpu_sr = s.cpu_sr :=
  ⟨rfl, rfl, rfl⟩

theorem yieldFromISR_fields (x : Int) (s : State) :
    (portYIELD_FROM_ISR x s).usCriticalNesting = s.usCriticalNesting ∧
    (portYIELD_FROM_ISR x s).imask = s.imask ∧
    (portYIELD_FROM_ISR x s).cpu_sr = s.cpu_sr := by
  unfold portYIELD_FROM_ISR
  split
  · exact yield_fields s
  · exact ⟨rfl, rfl, rfl⟩

theorem run_cons (s : State) (c : Call) (cs : List Call) :
    run s (c :: cs) = run (step s c) cs := rfl

/-! ## The mutual-exclusion invariant -/

/-- A counter above zero comes with every interrupt masked. -/
def MaskedWhileNested (s : State) : Prop :=
  0 < s.usCriticalNesting → s.imask = 0

theorem maskedWhileNested_exit (s : State) (h : MaskedWhileNested s) :
    MaskedWhileNested (portEXIT_CRITICAL s) := by
  intro hpos
  by_cases h0 : 0 < s.usCriticalNesting
  · by_cases h1 : u16Dec s.usCriticalNesting = 0
    · rw [exit_to_zero s h0 h1] at hpos
      simp [portENABLE_INTERRUPTS, sti, h1] at hpos
    · rw [exit_above_zero s h0 h1]
      exact h h0
  · have hz : s.usCriticalNesting = 0 := by omega
    rw [exit_of_zero s hz] at hpos
    omega

theorem maskedWhileNested_step (s : State) (c : Call) (h : MaskedWhileNested s) :
    MaskedWhileNested (step s c) := by
  cases c with
  | enterCritical => intro _; exact enter_imask s
  | exitCritical => exact maskedWhileNested_exit s h
  | yield =>
      intro hpos
      exact h hpos
  | yieldFromISR x =>
      intro hpos
      have hf := yieldFromISR_fields x s
      simp only [step] at hpos ⊢
      rw [hf.2.1]
      rw [hf.1] at hpos
      exact h hpos

theorem maskedWhileNested_run (calls : List Call) :
    ∀ s : State, MaskedWhileNested s → MaskedWhileNested (run s calls) := by
  induction calls with
  | nil => intro s h; exact h
  | cons c cs ih =>
      intro s h
      rw [run_cons]
      exact ih (step s c) (maskedWhileNested_step s c h)

/-! ## Sequences that never open a section inside another one -/

/-- Between calls of a never-nested sequence the machine is either outside
every critical section with the start-up mask `m0` installed, or inside exactly
one with `m0` saved in `cpu_sr`. -/
def Flat (m0 : Nat) (s : State) : Prop :=
  (s.usCriticalNesting = 0 ∧ s.imask = m0) ∨
  (s.usCriticalNesting = 1 ∧ s.imask = 0 ∧ s.cpu_sr = m0)

theorem flat_enter (m0 : Nat) (s : State) (h : Flat m0 s) (hz : s.usCriticalNesting = 0) :
    Flat m0 (portENTER_CRITICAL s) := by
  rcases h with ⟨_, hm⟩ | ⟨h1, _, _⟩
  · right
    refine ⟨?_, enter_imask s, ?_⟩
    · rw [enter_nesting, hz]; rfl
    · rw [enter_cpu_sr, hm]
  · omega

theorem flat_exit (m0 : Nat) (s : State) (h : Flat m0 s) :
    Flat m0 (portEXIT_CRITICAL s) := by
  rcases h with ⟨hz, hm⟩ | ⟨h1, hm, hsr⟩
  · rw [exit_of_zero s hz]
    exact Or.inl ⟨hz, hm⟩
  · have h0 : 0 < s.usCriticalNesting := by omega
    have hd : u16Dec s.usCriticalNesting = 0 := by rw [h1]; rfl
    rw [exit_to_zero s h0 hd]
    left
    simp [portENABLE_INTERRUPTS, sti, hd, hsr]

theorem flat_runCrit (m0 : Nat) (calls : List CritCall) :
    ∀ s : State, Flat m0 s → neverNested s calls = true → Flat m0 (runCrit s calls) := by
  induction calls with
  | nil => intro s h _; exact h
  | cons c cs ih =>
      intro s h hn
      cases c with
      | enter =>
          simp only [neverNested, Bool.and_eq_true, decide_eq_true_eq] at hn
          exact ih (portENTER_CRITICAL s) (flat_enter m0 s h hn.1) hn.2
      | exit =>
          simp only [neverNested] at hn
          exact ih (portEXIT_CRITICAL s) (flat_exit m0 s h) hn

/-- State after `enter; enter; exit; exit` from an initial state. -/
theorem runCrit_nested_round_trip (m0 sr0 : Nat) :
    runCrit (initState m0 sr0)
      [CritCall.enter, CritCall.enter, CritCall.exit, CritCall.exit] =
    { usCriticalNesting := 0, imask := 0, cpu_sr := 0,
      trace := [Event.cli, Event.cli, Event.sti 0] } := by
  simp [runCrit, run, step, CritCall.toCall, initState, portENTER_CRITICAL, portEXIT_CRITICAL,
    portDISABLE_INTERRUPTS, portENABLE_INTERRUPTS, cli, sti, u16Inc, u16Dec, u16Modulus,
    portNO_CRITICAL_SECTION_NESTING]

/-- State after `enter; enter; exit` from an initial state. -/
theorem runCrit_enter_enter_exit (m0 sr0 : Nat) :
    runCrit (initState m0 sr0) [CritCall.enter, CritCall.enter, CritCall.exit] =
    { usCriticalNesting := 1, imask := 0, cpu_sr := 0,
      trace := [Event.cli, Event.cli] } := by
  simp [runCrit, run, step, CritCall.toCall, initState, portENTER_CRITICAL, portEXIT_CRITICAL,
    portDISABLE_INTERRUPTS, portENABLE_INTERRUPTS, cli, sti, u16Inc, u16Dec, u16Modulus,
    portNO_CRITICAL_SECTION_NESTING]

/-- Counter after `n` consecutive enters: `n` added modulo `2^16`. -/
theorem nesting_after_enters (n : Nat) :
    ∀ s : State, s.usCriticalNesting < 65536 →
      (runCrit s (List.replicate n CritCall.enter)).usCriticalNesting =
        (s.usCriticalNesting + n) % 65536 := by
  induction n with
  | zero =>
      intro s hs
      show s.usCriticalNesting = (s.usCriticalNesting + 0) % 65536
      omega
  | succ n ih =>
      intro s hs
      have hlt : (portENTER_CRITICAL s).usCriticalNesting < 65536 := by
        rw [enter_nesting]
        unfold u16Inc u16Modulus
        omega
      have hstep : runCrit s (List.replicate (n + 1) CritCall.enter) =
          runCrit (portENTER_CRITICAL s) (List.replicate n CritCall.enter) := rfl
      rw [hstep, ih (portENTER_CRITICAL s) hlt, enter_nesting]
      unfold u16Inc u16Modulus
      omega

/-- Consecutive enters started with interrupts masked end with interrupts
masked. -/
theorem imask_after_enters (n : Nat) :
    ∀ s : State, s.imask = 0 →
      (runCrit s (List.replicate n CritCall.enter)).imask = 0 := by
  induction n with
  | zero => intro s hs; exact hs
  | succ n ih =>
      intro s _
      have hstep : runCrit s (List.replicate (n + 1) CritCall.enter) =
          runCrit (portENTER_CRITICAL s) (List.replicate n CritCall.enter) := rfl
      rw [hstep]
      exact ih (portENTER_CRITICAL s) (enter_imask s)

/-- After at least one enter in a row every interrupt is masked. -/
theorem imask_after_some_enters (n : Nat) (hn : 0 < n) (s : State) :
    (runCrit s (List.replicate n CritCall.enter)).imask = 0 := by
  cases n with
  | zero => omega
  | succ k =>
      have hstep : runCrit s (List.replicate (k + 1) CritCall.enter) =
          runCrit (portENTER_CRITICAL s) (List.replicate k CritCall.enter) := rfl
      rw [hstep]
      exact imask_after_enters k (portENTER_CRITICAL s) (enter_imask s)

/-- State reached by `65536` consecutive enters from an initial state: the
counter is back at zero and every interrupt is masked. -/
theorem wrapped_enters (m0 sr0 : Nat) :
    (runCrit (initState m0 sr0) (List.replicate 65536 CritCall.enter)).usCriticalNesting = 0 ∧
    (runCrit (initState m0 sr0) (List.replicate 65536 CritCall.enter)).imask = 0 := by
  constructor
  · rw [nesting_after_enters 65536 (initState m0 sr0) (by simp [initState])]
    simp [initState]
  · exact imask_after_some_enters 65536 (by omega) (initState m0 sr0)

/-! ## Critical-section nesting -/

/-- C1 (as stated, refuted): from the initial state with interrupts enabled
(mask `0xFFFF`), "enabled iff counter zero" fails after the fourth call of
`enter; enter; exit; exit`, and after the last of `65536` consecutive enters:
both times the counter is zero while every interrupt is masked. -/
theorem enabled_iff_zero_fails :
    interruptsEnabled (initState 0xFFFF 0) ∧
    ¬ (interruptsEnabled (runCrit (initState 0xFFFF 0)
          [CritCall.enter, CritCall.enter, CritCall.exit, CritCall.exit]) ↔
        (runCrit (initState 0xFFFF 0)
          [CritCall.enter, CritCall.enter, CritCall.exit, CritCall.exit]).usCriticalNesting
          = 0) ∧
    ¬ (interruptsEnabled (runCrit (initState 0xFFFF 0)
          (List.replicate 65536 CritCall.enter)) ↔
        (runCrit (initState 0xFFFF 0)
          (List.replicate 65536 CritCall.enter)).usCriticalNesting = 0) := by
  refine ⟨by decide, ?_, ?_⟩
  · rw [runCrit_nested_round_trip]
    decide
  · have hw := wrapped_enters 0xFFFF 0
    intro hiff
    exact hiff.mpr hw.1 hw.2

/-- C1 (amended): from the initial state with interrupts enabled, after every
finite sequence of `portENTER_CRITICAL` / `portEXIT_CRITICAL` calls a counter
above zero comes with interrupts masked; and when the sequence never enters a
critical section while the counter is above zero, interrupts are enabled if and
only if the counter is zero.  Every prefix of a sequence is itself a sequence,
so this is the state after each call. -/
theorem enabled_iff_zero_of_neverNested (m0 sr0 : Nat)
    (hm : interruptsEnabled (initState m0 sr0)) (calls : List CritCall) :
    (0 < (runCrit (initState m0 sr0) calls).usCriticalNesting →
      ¬ interruptsEnabled (runCrit (initState m0 sr0) calls)) ∧
    (neverNested (initState m0 sr0) calls = true →
      (interruptsEnabled (runCrit (initState m0 sr0) calls) ↔
        (runCrit (initState m0 sr0) calls).usCriticalNesting = 0)) := by
  have hm0 : m0 ≠ 0 := hm
  have hinv : MaskedWhileNested (runCrit (initState m0 sr0) calls) :=
    maskedWhileNested_run _ _ (fun h => absurd h (Nat.lt_irrefl 0))
  refine ⟨fun hpos hen => hen (hinv hpos), fun hn => ?_⟩
  have hflat := flat_runCrit m0 calls (initState m0 sr0) (Or.inl ⟨rfl, rfl⟩) hn
  unfold interruptsEnabled
  rcases hflat with ⟨hz, hmask⟩ | ⟨h1, hmask, _⟩
  · rw [hz, hmask]
    exact ⟨fun _ => rfl, fun _ => hm0⟩
  · rw [h1, hmask]
    exact ⟨fun h => absurd rfl h, fun h => absurd h (by decide)⟩

/-- Instance of the amended C1: `enter; exit; exit; enter; exit` from the
initial state with mask `0xFFFF`. -/
theorem enabled_iff_zero_of_neverNested_witness :
    interruptsEnabled (initState 0xFFFF 0) ∧
    neverNested (initState 0xFFFF 0)
      [CritCall.enter, CritCall.exit, CritCall.exit, CritCall.enter, CritCall.exit] = true ∧
    (interruptsEnabled (runCrit (initState 0xFFFF 0)
        [CritCall.enter, CritCall.exit, CritCall.exit, CritCall.enter, CritCall.exit]) ↔
      (runCrit (initState 0xFFFF 0)
        [CritCall.enter, CritCall.exit, CritCall.exit, CritCall.enter,
          CritCall.exit]).usCriticalNesting = 0) :=
  ⟨by decide, by decide,
    (enabled_iff_zero_of_neverNested 0xFFFF 0 (by decide)
      [CritCall.enter, CritCall.exit, CritCall.exit, CritCall.enter, CritCall.exit]).2
      (by decide)⟩

/-- C2 (what the code does): whatever the start-up mask `m0` and the initial
content `sr0` of `cpu_sr`, `enter; enter; exit; exit` ends with the counter at
zero and every interrupt masked.  The second `cli` overwrites the mask saved in
`cpu_sr` with `0`, and the final exit executes `sti(0)`. -/
theorem nested_round_trip_ends_masked (m0 sr0 : Nat) :
    (runCrit (initState m0 sr0)
      [CritCall.enter, CritCall.enter, CritCall.exit, CritCall.exit]).usCriticalNesting = 0 ∧
    (runCrit (initState m0 sr0)
      [CritCall.enter, CritCall.enter, CritCall.exit, CritCall.exit]).imask = 0 ∧
    ¬ interruptsEnabled (runCrit (initState m0 sr0)
      [CritCall.enter, CritCall.enter, CritCall.exit, CritCall.exit]) ∧
    (runCrit (initState m0 sr0)
      [CritCall.enter, CritCall.enter, CritCall.exit, CritCall.exit]).trace
      = [Event.cli, Event.cli, Event.sti 0] := by
  rw [runCrit_nested_round_trip]
  exact ⟨rfl, rfl, fun h => h rfl, rfl⟩

/-- C3: from the initial state, after every finite sequence of
`portENTER_CRITICAL`, `portEXIT_CRITICAL`, `portYIELD` and `portYIELD_FROM_ISR`
calls, a counter above zero comes with interrupts masked.  The sequence is
arbitrary, so runs in which the 16-bit counter wraps are included, and the
start-up mask `m0` is arbitrary, so it may enable interrupts. -/
theorem nested_implies_masked (m0 sr0 : Nat) (calls : List Call) :
    0 < (run (initState m0 sr0) calls).usCriticalNesting →
      ¬ interruptsEnabled (run (initState m0 sr0) calls) := by
  intro hpos hen
  have hinv : MaskedWhileNested (run (initState m0 sr0) calls) :=
    maskedWhileNested_run _ _ (fun h => absurd h (Nat.lt_irrefl 0))
  exact hen (hinv hpos)

/-- Instance of C3: a run mixing all four calls that ends inside a critical
section. -/
theorem nested_implies_masked_witness :
    0 < (run (initState 0xFFFF 0)
        [Call.enterCritical, Call.yield, Call.enterCritical, Call.yieldFromISR 1,
          Call.exitCritical]).usCriticalNesting ∧
    ¬ interruptsEnabled (run (initState 0xFFFF 0)
        [Call.enterCritical, Call.yield, Call.enterCritical, Call.yieldFromISR 1,
          Call.exitCritical]) :=
  ⟨by decide,
    nested_implies_masked 0xFFFF 0
      [Call.enterCritical, Call.yield, Call.enterCritical, Call.yieldFromISR 1,
        Call.exitCritical] (by decide)⟩

/-- C4: in a state with interrupts masked and the counter at `d`,
`1 ≤ d ≤ 65534`, `portENTER_CRITICAL` followed by `portEXIT_CRITICAL` leaves the
counter at `d` and interrupts masked, without running `portENABLE_INTERRUPTS`;
and from every initial state `enter; enter; exit` gives counter `1` with
interrupts masked. -/
theorem inner_section_keeps_mask (s : State) (d : Nat)
    (hmask : ¬ interruptsEnabled s) (hd : s.usCriticalNesting = d)
    (h1 : 1 ≤ d) (h2 : d ≤ 65534) :
    (portEXIT_CRITICAL (portENTER_CRITICAL s)).usCriticalNesting = d ∧
    ¬ interruptsEnabled (portEXIT_CRITICAL (portENTER_CRITICAL s)) ∧
    enableCount (portEXIT_CRITICAL (portENTER_CRITICAL s)) = enableCount s ∧
    ∀ m0 sr0 : Nat,
      (runCrit (initState m0 sr0)
        [CritCall.enter, CritCall.enter, CritCall.exit]).usCriticalNesting = 1 ∧
      ¬ interruptsEnabled (runCrit (initState m0 sr0)
        [CritCall.enter, CritCall.enter, CritCall.exit]) := by
  have _hm : s.imask = 0 := by
    unfold interruptsEnabled at hmask
    exact not_not.mp hmask
  have hinc : (portENTER_CRITICAL s).usCriticalNesting = d + 1 := by
    rw [enter_nesting, hd]
    exact u16Inc_of_lt (by omega)
  have hpos : 0 < (portENTER_CRITICAL s).usCriticalNesting := by omega
  have hdec : u16Dec (portENTER_CRITICAL s).usCriticalNesting = d := by
    rw [hinc, u16Dec_of_pos (by omega) (by omega)]
    omega
  have hne : u16Dec (portENTER_CRITICAL s).usCriticalNesting ≠ 0 := by omega
  rw [exit_above_zero _ hpos hne]
  refine ⟨hdec, fun h => h rfl, ?_, fun m0 sr0 => ?_⟩
  · simp [enableCount, portENTER_CRITICAL, portDISABLE_INTERRUPTS, cli, List.countP_append]
  · rw [runCrit_enter_enter_exit]
    exact ⟨rfl, fun h => h rfl⟩

/-- Instance of C4: the section opened inside the first one, from the initial
state with mask `0xFFFF`. -/
theorem inner_section_keeps_mask_witness :
    ¬ interruptsEnabled (portENTER_CRITICAL (initState 0xFFFF 0)) ∧
    (portENTER_CRITICAL (initState 0xFFFF 0)).usCriticalNesting = 1 ∧
    (portEXIT_CRITICAL (portENTER_CRITICAL
      (portENTER_CRITICAL (initState 0xFFFF 0)))).usCriticalNesting = 1 ∧
    ¬ interruptsEnabled (portEXIT_CRITICAL (portENTER_CRITICAL
      (portENTER_CRITICAL (initState 0xFFFF 0)))) :=
  ⟨by decide, rfl,
    (inner_section_keeps_mask (portENTER_CRITICAL (initState 0xFFFF 0)) 1
      (by decide) rfl (by decide) (by decide)).1,
    (inner_section_keeps_mask (portENTER_CRITICAL (initState 0xFFFF 0)) 1
      (by decide) rfl (by decide) (by decide)).2.1⟩

/-- C5: in a state whose counter is zero, `portEXIT_CRITICAL` changes nothing:
the counter stays `0`, no `sti` is executed, mask, `cpu_sr` and log are what
they were; and so does any number of further exits. -/
theorem exit_at_zero_is_noop (s : State) (h : s.usCriticalNesting = 0) :
    portEXIT_CRITICAL s = s ∧
    (portEXIT_CRITICAL s).usCriticalNesting = 0 ∧
    enableCount (portEXIT_CRITICAL s) = enableCount s ∧
    ∀ n : Nat, (portEXIT_CRITICAL^[n]) s = s := by
  have he := exit_of_zero s h
  refine ⟨he, by rw [he, h], by rw [he], fun n => ?_⟩
  exact Function.iterate_fixed he n

/-- Instance of C5: a spurious exit in the initial state. -/
theorem exit_at_zero_is_noop_witness :
    (initState 0xFFFF 7).usCriticalNesting = 0 ∧
    portEXIT_CRITICAL (initState 0xFFFF 7) = initState 0xFFFF 7 :=
  ⟨rfl, (exit_at_zero_is_noop (initState 0xFFFF 7) rfl).1⟩

/-! ## The interrupt gate -/

/-- C6 (as stated, refuted): with mask `0xFFFF` in force, one
`portDISABLE_INTERRUPTS` leaves `(mask, cpu_sr) = (0, 0xFFFF)` and a second
one, executed with interrupts already masked, leaves `(0, 0)`. -/
theorem disable_twice_differs_from_once :
    gateState (portDISABLE_INTERRUPTS (initState 0xFFFF 0)) = (0, 0xFFFF) ∧
    gateState (portDISABLE_INTERRUPTS (portDISABLE_INTERRUPTS (initState 0xFFFF 0))) = (0, 0) ∧
    gateState (portDISABLE_INTERRUPTS (portDISABLE_INTERRUPTS (initState 0xFFFF 0))) ≠
      gateState (portDISABLE_INTERRUPTS (initState 0xFFFF 0)) := by
  decide

/-- C6 (amended): for every state, `portDISABLE_INTERRUPTS` executed twice
leaves the same interrupt mask as executed once, namely every interrupt masked;
and when interrupts were already masked before the first execution, the mask
and `cpu_sr` together are the same after two executions as after one. -/
theorem disable_idempotent_on_mask (s : State) :
    (portDISABLE_INTERRUPTS (portDISABLE_INTERRUPTS s)).imask =
      (portDISABLE_INTERRUPTS s).imask ∧
    ¬ interruptsEnabled (portDISABLE_INTERRUPTS s) ∧
    ¬ interruptsEnabled (portDISABLE_INTERRUPTS (portDISABLE_INTERRUPTS s)) ∧
    (¬ interruptsEnabled s →
      gateState (portDISABLE_INTERRUPTS (portDISABLE_INTERRUPTS s)) =
        gateState (portDISABLE_INTERRUPTS s)) := by
  refine ⟨rfl, fun h => h rfl, fun h => h rfl, fun hmask => ?_⟩
  have hm : s.imask = 0 := by
    unfold interruptsEnabled at hmask
    exact not_not.mp hmask
  simp [gateState, disable_imask, disable_cpu_sr, hm]

/-- Instance of the amended C6: a state inside a critical section, mask
already zero, `cpu_sr` holding `0xFFFF`. -/
theorem disable_idempotent_on_mask_witness :
    ¬ interruptsEnabled { usCriticalNesting := 1, imask := 0, cpu_sr := 0xFFFF, trace := [] } ∧
    gateState (portDISABLE_INTERRUPTS (portDISABLE_INTERRUPTS
        { usCriticalNesting := 1, imask := 0, cpu_sr := 0xFFFF, trace := [] })) =
      gateState (portDISABLE_INTERRUPTS
        { usCriticalNesting := 1, imask := 0, cpu_sr := 0xFFFF, trace := [] }) :=
  ⟨by decide,
    (disable_idempotent_on_mask
      { usCriticalNesting := 1, imask := 0, cpu_sr := 0xFFFF, trace := [] }).2.2.2
      (by decide)⟩

/-! ## Yield requests -/

theorem trapCount_yield (s : State) : trapCount (portYIELD s) = trapCount s + 1 := by
  simp [trapCount, portYIELD, raise14, List.count_append]

/-- C7: `portYIELD_FROM_ISR(x)` with `x ≠ 0` is `portYIELD`: one more
`raise 14` in the log; with `x = 0` it leaves the state as it is, so no
`raise 14` is added. -/
theorem yieldFromISR_raises_iff_flag (s : State) (x : Int) :
    (x ≠ 0 →
      trapCount (portYIELD_FROM_ISR x s) = trapCount s + 1 ∧
      portYIELD_FROM_ISR x s = portYIELD s ∧
      (portYIELD_FROM_ISR x s).trace = s.trace ++ [Event.raise 14]) ∧
    (x = 0 →
      trapCount (portYIELD_FROM_ISR x s) = trapCount s ∧
      portYIELD_FROM_ISR x s = s) := by
  constructor
  · intro hx
    have he : portYIELD_FROM_ISR x s = portYIELD s := by
      simp [portYIELD_FROM_ISR, hx]
    rw [he]
    exact ⟨trapCount_yield s, rfl, rfl⟩
  · intro hx
    have he : portYIELD_FROM_ISR x s = s := by
      simp [portYIELD_FROM_ISR, hx]
    rw [he]
    exact ⟨rfl, rfl⟩

/-- Instance of C7: flag `1` and flag `0` inside a critical section. -/
theorem yieldFromISR_raises_iff_flag_witness :
    ((1 : Int) ≠ 0 ∧
      trapCount (portYIELD_FROM_ISR 1 (portENTER_CRITICAL (initState 0xFFFF 0))) =
        trapCount (portENTER_CRITICAL (initState 0xFFFF 0)) + 1) ∧
    ((0 : Int) = 0 ∧
      portYIELD_FROM_ISR 0 (portENTER_CRITICAL (initState 0xFFFF 0)) =
        portENTER_CRITICAL (initState 0xFFFF 0)) :=
  ⟨⟨by decide,
      ((yieldFromISR_raises_iff_flag (portENTER_CRITICAL (initState 0xFFFF 0)) 1).1
        (by decide)).1⟩,
    ⟨rfl,
      ((yieldFromISR_raises_iff_flag (portENTER_CRITICAL (initState 0xFFFF 0)) 0).2 rfl).2⟩⟩

/-- C8: in every state `portYIELD` appends exactly one `raise 14` to the log
and leaves `usCriticalNesting`, the interrupt mask and `cpu_sr` as they were. -/
theorem yield_raises_once (s : State) :
    trapCount (portYIELD s) = trapCount s + 1 ∧
    (portYIELD s).trace = s.trace ++ [Event.raise 14] ∧
    (portYIELD s).usCriticalNesting = s.usCriticalNesting ∧
    (portYIELD s).imask = s.imask ∧
    (portYIELD s).cpu_sr = s.cpu_sr :=
  ⟨trapCount_yield s, rfl, rfl, rfl, rfl⟩

/-! ## Enter and exit, one call at a time -/

/-- C9 (as stated, refuted): with the counter at `65535`,
`portENTER_CRITICAL` leaves it at `0`, not at `65536`, so the counter is not
above zero after that enter. -/
theorem enter_wraps_at_max :
    (portENTER_CRITICAL
      { usCriticalNesting := 65535, imask := 0, cpu_sr := 0xFFFF, trace := [] }).usCriticalNesting
      = 0 ∧
    (portENTER_CRITICAL
      { usCriticalNesting := 65535, imask := 0, cpu_sr := 0xFFFF, trace := [] }).usCriticalNesting
      ≠ 65535 + 1 ∧
    ¬ 0 < (portENTER_CRITICAL
      { usCriticalNesting := 65535, imask := 0, cpu_sr := 0xFFFF,
        trace := [] }).usCriticalNesting := by
  decide

/-- C9 (amended): in every state `portENTER_CRITICAL` first masks interrupts
and then increments the 16-bit counter modulo `65536`: afterwards interrupts
are masked and the counter is its previous value plus one modulo `65536`; when
the previous value is at most `65534` that is the previous value plus one, and
the counter is above zero. -/
theorem enter_masks_then_increments (s : State) :
    portENTER_CRITICAL s =
      { portDISABLE_INTERRUPTS s with usCriticalNesting := u16Inc s.usCriticalNesting } ∧
    ¬ interruptsEnabled (portENTER_CRITICAL s) ∧
    (portENTER_CRITICAL s).usCriticalNesting = (s.usCriticalNesting + 1) % 65536 ∧
    (s.usCriticalNesting < 65535 →
      (portENTER_CRITICAL s).usCriticalNesting = s.usCriticalNesting + 1 ∧
      0 < (portENTER_CRITICAL s).usCriticalNesting) := by
  refine ⟨rfl, fun h => h rfl, rfl, fun hlt => ?_⟩
  rw [enter_nesting, u16Inc_of_lt hlt]
  exact ⟨rfl, Nat.succ_pos _⟩

/-- Instance of the amended C9: entering from the initial state. -/
theorem enter_masks_then_increments_witness :
    (initState 0xFFFF 0).usCriticalNesting < 65535 ∧
    (portENTER_CRITICAL (initState 0xFFFF 0)).usCriticalNesting = 0 + 1 ∧
    0 < (portENTER_CRITICAL (initState 0xFFFF 0)).usCriticalNesting :=
  ⟨by decide, (enter_masks_then_increments (initState 0xFFFF 0)).2.2.2 (by decide)⟩

/-- C10: in a state whose counter is `d > 0`, `portEXIT_CRITICAL` leaves the
counter at `d - 1`.  If `d - 1 = 0` the result is `portENABLE_INTERRUPTS`
applied to the state with the counter decremented: one more `sti` in the log,
installing `cpu_sr`.  If `d - 1 > 0` no `sti` is executed and the mask,
`cpu_sr` and the log are unchanged, so interrupts that were masked remain
masked. -/
theorem exit_decrements_and_gates_enable (s : State) (d : Nat)
    (hd : s.usCriticalNesting = d) (hpos : 0 < d) (h16 : d < 65536) :
    (portEXIT_CRITICAL s).usCriticalNesting = d - 1 ∧
    (d - 1 = 0 →
      portEXIT_CRITICAL s = portENABLE_INTERRUPTS { s with usCriticalNesting := d - 1 } ∧
      enableCount (portEXIT_CRITICAL s) = enableCount s + 1 ∧
      (portEXIT_CRITICAL s).trace = s.trace ++ [Event.sti s.cpu_sr] ∧
      (portEXIT_CRITICAL s).imask = s.cpu_sr) ∧
    (0 < d - 1 →
      enableCount (portEXIT_CRITICAL s) = enableCount s ∧
      (portEXIT_CRITICAL s).trace = s.trace ∧
      (portEXIT_CRITICAL s).imask = s.imask ∧
      (portEXIT_CRITICAL s).cpu_sr = s.cpu_sr ∧
      (¬ interruptsEnabled s → ¬ interruptsEnabled (portEXIT_CRITICAL s))) := by
  have h0 : 0 < s.usCriticalNesting := by omega
  have hdec : u16Dec s.usCriticalNesting = d - 1 := by
    rw [hd]
    exact u16Dec_of_pos hpos h16
  by_cases hz : d - 1 = 0
  · have h1 : u16Dec s.usCriticalNesting = 0 := by omega
    rw [exit_to_zero s h0 h1, hdec]
    refine ⟨by simp [portENABLE_INTERRUPTS, sti], fun _ => ⟨rfl, ?_, rfl, rfl⟩,
      fun h => absurd h (by omega)⟩
    simp [enableCount, portENABLE_INTERRUPTS, sti, List.countP_append]
  · have h1 : u16Dec s.usCriticalNesting ≠ 0 := by omega
    rw [exit_above_zero s h0 h1]
    refine ⟨hdec, fun h => absurd h hz, fun _ => ⟨?_, ?_, ?_, ?_, ?_⟩⟩
    · simp [enableCount]
    · simp
    · simp
    · simp
    · simp [interruptsEnabled]

/-- Instance of C10: leaving the outermost section (counter `1`) and leaving
an inner one (counter `2`). -/
theorem exit_decrements_and_gates_enable_witness :
    (portEXIT_CRITICAL
      { usCriticalNesting := 1, imask := 0, cpu_sr := 0xFFFF, trace := [] }).imask = 0xFFFF ∧
    (portEXIT_CRITICAL
      { usCriticalNesting := 2, imask := 0, cpu_sr := 0xFFFF, trace := [] }).imask = 0 :=
  ⟨((exit_decrements_and_gates_enable
      { usCriticalNesting := 1, imask := 0, cpu_sr := 0xFFFF, trace := [] } 1
      rfl (by decide) (by decide)).2.1 rfl).2.2.2,
    ((exit_decrements_and_gates_enable
      { usCriticalNesting := 2, imask := 0, cpu_sr := 0xFFFF, trace := [] } 2
      rfl (by decide) (by decide)).2.2 (by decide)).2.2.1⟩

end PortMacro
